import Mathlib

/-!
Shallow embedding of `Source/Core/PolylineVolumeOutlineGeometry.js`.

Coordinates are modelled as rationals (the code only moves them around; the
only arithmetic on them is the shoelace sum of the winding check).  Lengths,
slot indices and vertex indices are natural numbers.  A JavaScript `Number[]`
packing buffer is modelled as a total map from slot index to value; the index
buffer of the produced geometry is modelled as the list of indices written, in
order (the 16- versus 32-bit width choice of `IndexDatatype.createTypedArray`
is a pure storage decision with no semantic effect and is not modelled).

External collaborators that are not part of `src/` (`Cartesian2`/`Cartesian3`
pack helpers, `Ellipsoid`, `PolygonPipeline.computeWindingOrder2D`, the
duplicate-removal helpers and the sweeper `computePositions`) are modelled
from the spec where a claim needs them; each such definition carries a
`Modelled from the spec:` doc comment.
-/

set_option maxHeartbeats 1000000
set_option linter.unusedVariables false

namespace Cesium

/-- A 3D point (`Cartesian3`). -/
structure Cartesian3 where
  x : ℚ
  y : ℚ
  z : ℚ
  deriving DecidableEq

/-- A 2D point (`Cartesian2`). -/
structure Cartesian2 where
  x : ℚ
  y : ℚ
  deriving DecidableEq

/-- Modelled from the spec: the reference surface is described by its radii
(a 3D vector); `Ellipsoid` itself is an external collaborator, not part of
`src/`. -/
structure Ellipsoid where
  radii : Cartesian3
  deriving DecidableEq

/-- A JavaScript `Number[]` used as a packing buffer: a total map from slot
index to numeric value. -/
abbrev JSArray := ℕ → ℚ

/-- One slot assignment `array[i] = v`. -/
def write (a : JSArray) (i : ℕ) (v : ℚ) : JSArray :=
  fun k => if k = i then v else a k

/-- `Cartesian3.packedLength` (3 slots for a 3D point). -/
def Cartesian3.packedLength : ℕ := 3

/-- `Cartesian2.packedLength` (2 slots for a 2D point). -/
def Cartesian2.packedLength : ℕ := 2

/-- Modelled from the spec: the reference-surface encoding is its radii,
`K = 3` slots (`Ellipsoid.packedLength`). -/
def Ellipsoid.packedLength : ℕ := 3

/-- `Cartesian3.pack`: writes `x`, `y`, `z` at slots `i`, `i+1`, `i+2`. -/
def Cartesian3.pack (v : Cartesian3) (a : JSArray) (i : ℕ) : JSArray :=
  write (write (write a i v.x) (i + 1) v.y) (i + 2) v.z

/-- `Cartesian2.pack`: writes `x`, `y` at slots `i`, `i+1`. -/
def Cartesian2.pack (v : Cartesian2) (a : JSArray) (i : ℕ) : JSArray :=
  write (write a i v.x) (i + 1) v.y

/-- Modelled from the spec: `Ellipsoid.pack` writes the radii. -/
def Ellipsoid.pack (e : Ellipsoid) (a : JSArray) (i : ℕ) : JSArray :=
  Cartesian3.pack e.radii a i

/-- `Cartesian3.unpack`. -/
def Cartesian3.unpack (a : JSArray) (i : ℕ) : Cartesian3 :=
  ⟨a i, a (i + 1), a (i + 2)⟩

/-- `Cartesian2.unpack`. -/
def Cartesian2.unpack (a : JSArray) (i : ℕ) : Cartesian2 :=
  ⟨a i, a (i + 1)⟩

/-- Modelled from the spec: `Ellipsoid.unpack` reads the radii.  (In the
source the decoded radii are stored into the module-level scratch instance;
that state is threaded explicitly through the `unpack` models below.) -/
def Ellipsoid.unpack (a : JSArray) (i : ℕ) : Ellipsoid :=
  ⟨Cartesian3.unpack a i⟩

/-- Modelled from the spec: `Ellipsoid.clone` copies the radii into a fresh
instance. -/
def Ellipsoid.clone (e : Ellipsoid) : Ellipsoid :=
  ⟨e.radii⟩

/-- The geometry-description object built by the constructor
(source lines 131-159). -/
structure PolylineVolumeOutlineGeometry where
  _positions : List Cartesian3
  _shape : List Cartesian2
  _ellipsoid : Ellipsoid
  _cornerType : ℚ
  _granularity : ℚ
  packedLength : ℕ
  deriving DecidableEq

/-- The constructor (source lines 131-159): stores the inputs (cloning the
ellipsoid) and computes `packedLength` once from the path and shape lengths.
The `defaultValue` fall-backs for the optional inputs are resolved by the
caller here, so every field is passed explicitly. -/
def construct (polylinePositions : List Cartesian3) (shapePositions : List Cartesian2)
    (ellipsoid : Ellipsoid) (cornerType granularity : ℚ) :
    PolylineVolumeOutlineGeometry :=
  { _positions := polylinePositions
    _shape := shapePositions
    _ellipsoid := Ellipsoid.clone ellipsoid
    _cornerType := cornerType
    _granularity := granularity
    packedLength := 1 + polylinePositions.length * Cartesian3.packedLength
      + (1 + shapePositions.length * Cartesian2.packedLength)
      + Ellipsoid.packedLength + 2 }

/-- The `for` loop of `pack` over the path points (source lines 187-189). -/
def packPositionsLoop : List Cartesian3 → JSArray → ℕ → JSArray
  | [], a, _ => a
  | p :: rest, a, i =>
    packPositionsLoop rest (Cartesian3.pack p a i) (i + Cartesian3.packedLength)

/-- The `for` loop of `pack` over the shape points (source lines 195-197). -/
def packShapeLoop : List Cartesian2 → JSArray → ℕ → JSArray
  | [], a, _ => a
  | p :: rest, a, i =>
    packShapeLoop rest (Cartesian2.pack p a i) (i + Cartesian2.packedLength)

/-- `PolylineVolumeOutlineGeometry.pack` (source lines 169-204). -/
def PolylineVolumeOutlineGeometry.pack (value : PolylineVolumeOutlineGeometry)
    (array : JSArray) (startingIndex : ℕ) : JSArray :=
  let a1 := write array startingIndex (value._positions.length : ℚ)
  let i1 := startingIndex + 1
  let a2 := packPositionsLoop value._positions a1 i1
  let i2 := i1 + value._positions.length * Cartesian3.packedLength
  let a3 := write a2 i2 (value._shape.length : ℚ)
  let i3 := i2 + 1
  let a4 := packShapeLoop value._shape a3 i3
  let i4 := i3 + value._shape.length * Cartesian2.packedLength
  let a5 := Ellipsoid.pack value._ellipsoid a4 i4
  let i5 := i4 + Ellipsoid.packedLength
  let a6 := write a5 i5 value._cornerType
  write a6 (i5 + 1) value._granularity

/-- Reading a stored element count back out of a slot.  A valid packed buffer
stores a whole number in a count slot; this extracts it. -/
def readCount (q : ℚ) : ℕ :=
  q.num.toNat

/-- The `for` loop of `unpack` over the path points (source lines 237-239). -/
def unpackPositionsLoop (a : JSArray) : ℕ → ℕ → List Cartesian3
  | 0, _ => []
  | n + 1, i =>
    Cartesian3.unpack a i :: unpackPositionsLoop a n (i + Cartesian3.packedLength)

/-- The `for` loop of `unpack` over the shape points (source lines 244-246). -/
def unpackShapeLoop (a : JSArray) : ℕ → ℕ → List Cartesian2
  | 0, _ => []
  | n + 1, i =>
    Cartesian2.unpack a i :: unpackShapeLoop a n (i + Cartesian2.packedLength)

/-- The five decoded fields read by `unpack` (source lines 230-252), shared by
the fresh-result and caller-result branches. -/
structure UnpackedFields where
  positions : List Cartesian3
  shape : List Cartesian2
  ellipsoid : Ellipsoid
  cornerType : ℚ
  granularity : ℚ
  deriving DecidableEq

/-- The sequential reads of `unpack` (source lines 230-252). -/
def readFields (array : JSArray) (startingIndex : ℕ) : UnpackedFields :=
  let len1 := readCount (array startingIndex)
  let i1 := startingIndex + 1
  let positions := unpackPositionsLoop array len1 i1
  let i2 := i1 + len1 * Cartesian3.packedLength
  let len2 := readCount (array i2)
  let i3 := i2 + 1
  let shape := unpackShapeLoop array len2 i3
  let i4 := i3 + len2 * Cartesian2.packedLength
  let ellipsoid := Ellipsoid.unpack array i4
  let i5 := i4 + Ellipsoid.packedLength
  { positions := positions
    shape := shape
    ellipsoid := ellipsoid
    cornerType := array i5
    granularity := array (i5 + 1) }

/-- `unpack` without a caller-provided result (source lines 254-259): the
decoded radii are written into the module-level `scratchEllipsoid` (threaded
here as explicit state, in and out), and the constructor then clones that
scratch into the fresh instance.  Returns the new object and the scratch
state after the call. -/
def PolylineVolumeOutlineGeometry.unpackFresh (array : JSArray) (startingIndex : ℕ)
    (scratchEllipsoid : Ellipsoid) : PolylineVolumeOutlineGeometry × Ellipsoid :=
  let _ := scratchEllipsoid
  let f := readFields array startingIndex
  (construct f.positions f.shape f.ellipsoid f.cornerType f.granularity, f.ellipsoid)

/-- `unpack` with a caller-provided result (source lines 262-268): the five
fields are overwritten with the decoded values (the ellipsoid by cloning the
scratch into the result's instance); `packedLength` is not assigned.  Returns
the updated object and the scratch state after the call. -/
def PolylineVolumeOutlineGeometry.unpackInto (array : JSArray) (startingIndex : ℕ)
    (result : PolylineVolumeOutlineGeometry) :
    PolylineVolumeOutlineGeometry × Ellipsoid :=
  let f := readFields array startingIndex
  ({ _positions := f.positions
     _shape := f.shape
     _ellipsoid := Ellipsoid.clone f.ellipsoid
     _cornerType := f.cornerType
     _granularity := f.granularity
     packedLength := result.packedLength }, f.ellipsoid)

/-! ### Topology builder (`computeAttributes`, source lines 44-94) -/

/-- One closed ring of line-segment index pairs over the cross-section whose
first vertex is `offset` (source lines 61-66 and 70-75): pairs
`(j + offset, j + offset + 1)` for `j < shapeLength - 1`, then the closing
pair `(shapeLength - 1 + offset, offset)`. -/
def ringIndices (shapeLength offset : ℕ) : List ℕ :=
  ((List.range (shapeLength - 1)).flatMap fun j => [j + offset, j + offset + 1])
    ++ [shapeLength - 1 + offset, offset]

/-- The longitudinal connectors (source lines 77-84). -/
def connectorIndices (shapeLength shapeCount : ℕ) : List ℕ :=
  (List.range (shapeCount - 1)).flatMap fun i =>
    (List.range shapeLength).flatMap fun j =>
      [j + shapeLength * i, j + (shapeLength * i + shapeLength)]

/-- The whole index buffer, in write order: start ring (at `i = 0`, so
`offset = 0 * shapeLength`), end ring (`i = shapeCount - 1`), connectors. -/
def computeIndices (shapeLength shapeCount : ℕ) : List ℕ :=
  ringIndices shapeLength (0 * shapeLength)
    ++ ringIndices shapeLength ((shapeCount - 1) * shapeLength)
    ++ connectorIndices shapeLength shapeCount

/-- The size of the index buffer allocated at source line 56. -/
def allocatedIndexCount (shapeLength shapeCount : ℕ) : ℕ :=
  2 * shapeLength * (shapeCount + 1)

/-- `PrimitiveType.LINES`. -/
inductive PrimitiveType where
  | LINES
  deriving DecidableEq

/-- One vertex attribute block. -/
structure GeometryAttribute where
  componentsPerAttribute : ℕ
  values : List ℚ
  deriving DecidableEq

/-- The attribute container (only `position` is used here). -/
structure GeometryAttributes where
  position : GeometryAttribute
  deriving DecidableEq

/-- The output geometry container (the bounding sphere is produced by the
external `BoundingSphere.fromVertices` and is not modelled). -/
structure Geometry where
  attributes : GeometryAttributes
  indices : List ℕ
  primitiveType : PrimitiveType
  deriving DecidableEq

/-- `computeAttributes` (source lines 44-94).  `vertexCount` (line 53) equals
`positionLength` and only selects the integer width of the index buffer, so
only `positionLength` appears here. -/
def computeAttributes (positions : List ℚ) (shape : List Cartesian2) : Geometry :=
  let attributes : GeometryAttributes :=
    { position := { componentsPerAttribute := 3, values := positions } }
  let shapeLength := shape.length
  let positionLength := positions.length / 3
  let shapeCount := positionLength / shapeLength
  { attributes := attributes
    indices := computeIndices shapeLength shapeCount
    primitiveType := PrimitiveType.LINES }

/-! ### Winding normalization and `createGeometry` (source lines 282-304) -/

/-- The cross product of two 2D points, the shoelace summand. -/
def cross2 (a b : Cartesian2) : ℚ :=
  a.x * b.y - b.x * a.y

/-- Modelled from the spec: the shoelace sum of a vertex list, wrapping
around to `p0` after the last vertex. -/
def shoelace (p0 : Cartesian2) : List Cartesian2 → ℚ
  | a :: b :: rest => cross2 a b + shoelace p0 (b :: rest)
  | [a] => cross2 a p0
  | [] => 0

/-- Modelled from the spec: twice the 2D signed area of a polygon
(shoelace formula). -/
def signedAreaDoubled : List Cartesian2 → ℚ
  | [] => 0
  | p0 :: rest => shoelace p0 (p0 :: rest)

/-- `WindingOrder`. -/
inductive WindingOrder where
  | CLOCKWISE
  | COUNTER_CLOCKWISE
  deriving DecidableEq

/-- Modelled from the spec: `PolygonPipeline.computeWindingOrder2D` (an
external collaborator, not part of `src/`) classifies a negative shoelace
signed area as clockwise. -/
def computeWindingOrder2D (shape : List Cartesian2) : WindingOrder :=
  if signedAreaDoubled shape < 0 then WindingOrder.CLOCKWISE
  else WindingOrder.COUNTER_CLOCKWISE

/-- The winding fix of `createGeometry` (source lines 297-299): a clockwise
shape is reversed in place before being handed to the sweeper. -/
def normalizeWinding (shape2D : List Cartesian2) : List Cartesian2 :=
  if computeWindingOrder2D shape2D = WindingOrder.CLOCKWISE then shape2D.reverse
  else shape2D

/-- Modelled from the spec: removal of points numerically coincident with
their immediate predecessor (the per-axis tolerance is modelled as exact
equality).  Helper carrying the previous kept point. -/
def dedupFrom {α : Type} [DecidableEq α] (prev : α) : List α → List α
  | [] => []
  | p :: rest => if p = prev then dedupFrom prev rest else p :: dedupFrom p rest

/-- Modelled from the spec: consecutive-duplicate removal, keeping the first
point. -/
def removeDuplicates {α : Type} [DecidableEq α] : List α → List α
  | [] => []
  | p :: rest => p :: dedupFrom p rest

/-- Modelled from the spec: the external
`PolylineVolumeGeometryLibrary.removeDuplicatesFromPositions` (its ellipsoid
argument only feeds the tolerance comparison, which is modelled as exact
equality). -/
def removeDuplicatesFromPositions (positions : List Cartesian3) : List Cartesian3 :=
  removeDuplicates positions

/-- Modelled from the spec: the external
`PolylineVolumeGeometryLibrary.removeDuplicatesFromShape`. -/
def removeDuplicatesFromShape (shape : List Cartesian2) : List Cartesian2 :=
  removeDuplicates shape

/-- A thrown `DeveloperError`. -/
structure DeveloperError where
  message : String
  deriving DecidableEq

/-- `PolylineVolumeOutlineGeometry.createGeometry` (source lines 282-304).
The sweeper `computePositions` is an external collaborator: it is taken as a
function argument producing the flattened vertex buffer from the clean path,
the winding-normalized shape and the geometry description (the bounding
rectangle passed in the source is derived data for the sweeper and is folded
into this argument). -/
def createGeometry
    (computePositions : List Cartesian3 → List Cartesian2 →
      PolylineVolumeOutlineGeometry → List ℚ)
    (g : PolylineVolumeOutlineGeometry) : Except DeveloperError Geometry :=
  let cleanPositions := removeDuplicatesFromPositions g._positions
  let shape2D := removeDuplicatesFromShape g._shape
  if cleanPositions.length < 2 then
    Except.error ⟨"Count of unique polyline positions must be greater than 1."⟩
  else if shape2D.length < 3 then
    Except.error ⟨"Count of unique shape positions must be at least 3."⟩
  else
    let shape2D := normalizeWinding shape2D
    Except.ok (computeAttributes (computePositions cleanPositions shape2D g) shape2D)

/-- Whether a `createGeometry` call failed with a `DeveloperError`. -/
def isError {ε α : Type} : Except ε α → Bool
  | Except.error _ => true
  | Except.ok _ => false

/-! ### The wire format as a slot list, and generic slot-writing lemmas -/

/-- Writing a list of values into consecutive slots starting at `i`. -/
def writeList : JSArray → ℕ → List ℚ → JSArray
  | a, _, [] => a
  | a, i, v :: rest => writeList (write a i v) (i + 1) rest

/-- The flattened coordinate slots of a path, three per point. -/
def flattenPositions : List Cartesian3 → List ℚ
  | [] => []
  | p :: rest => p.x :: p.y :: p.z :: flattenPositions rest

/-- The flattened coordinate slots of a shape, two per point. -/
def flattenShape : List Cartesian2 → List ℚ
  | [] => []
  | p :: rest => p.x :: p.y :: flattenShape rest

/-- The packed encoding of a spec as one list of slots, exactly as the spec's
wire format describes it: path count, path coordinates, shape count, shape
coordinates, reference-surface slots, corner-style code, granularity. -/
def layoutSlots (value : PolylineVolumeOutlineGeometry) : List ℚ :=
  ((value._positions.length : ℚ) :: flattenPositions value._positions)
    ++ (((value._shape.length : ℚ) :: flattenShape value._shape)
    ++ ([value._ellipsoid.radii.x, value._ellipsoid.radii.y, value._ellipsoid.radii.z]
    ++ [value._cornerType, value._granularity]))

/-- The index buffer as the spec describes it: start ring over the first
cross-section (pairs `(j, j+1)`, closing pair `(shapeLength-1, 0)`), the same
pattern shifted by `(shapeCount-1)*shapeLength` for the end ring, then the
longitudinal connectors `(j + i*shapeLength, j + (i+1)*shapeLength)`. -/
def specOutlineIndices (L C : ℕ) : List ℕ :=
  (((List.range (L - 1)).flatMap fun j => [j, j + 1]) ++ [L - 1, 0])
    ++ ((((List.range (L - 1)).flatMap fun j =>
          [j + (C - 1) * L, j + 1 + (C - 1) * L]) ++ [L - 1 + (C - 1) * L, 0 + (C - 1) * L])
    ++ ((List.range (C - 1)).flatMap fun i =>
        (List.range L).flatMap fun j => [j + i * L, j + (i + 1) * L]))

/-- The shoelace sum over the consecutive pairs of a list, with no
wrap-around; `signedAreaDoubled` is this sum over the closed cycle. -/
def pathCross : List Cartesian2 → ℚ
  | a :: b :: rest => cross2 a b + pathCross (b :: rest)
  | _ => 0

/-! ### Concrete fixtures used by witnesses and counterexamples -/

/-- An all-zero packing buffer. -/
def zeroArray : JSArray := fun _ => 0

/-- A two-point path. -/
def pathPair : List Cartesian3 := [⟨0, 0, 0⟩, ⟨1, 0, 0⟩]

/-- A clockwise triangle (shoelace doubled area is negative). -/
def triCW : List Cartesian2 := [⟨0, 0⟩, ⟨0, 1⟩, ⟨1, 0⟩]

/-- A counter-clockwise triangle (shoelace doubled area is positive). -/
def triCCW : List Cartesian2 := [⟨0, 0⟩, ⟨1, 0⟩, ⟨0, 1⟩]

/-- A reference surface with unit radii. -/
def unitEllipsoid : Ellipsoid := ⟨⟨1, 1, 1⟩⟩

/-- A sample spec with 2 path points and 3 shape points. -/
def sampleSpec : PolylineVolumeOutlineGeometry :=
  construct pathPair triCW unitEllipsoid 2 1

/-! ### Lemmas and claim theorems -/

lemma writeList_outside (l : List ℚ) : ∀ (a : JSArray) (i j : ℕ),
    j < i ∨ i + l.length ≤ j → writeList a i l j = a j := by
  induction l with
  | nil => intro a i j _; rfl
  | cons v rest ih =>
    intro a i j h
    rw [show writeList a i (v :: rest) = writeList (write a i v) (i + 1) rest from rfl,
      ih (write a i v) (i + 1) j (by simp only [List.length_cons] at h; omega)]
    have hji : j ≠ i := by simp only [List.length_cons] at h; omega
    simp [write, hji]

lemma writeList_get (l : List ℚ) : ∀ (a : JSArray) (i k : ℕ) (h : k < l.length),
    writeList a i l (i + k) = l[k] := by
  induction l with
  | nil => intro a i k h; exact absurd h (by simp)
  | cons v rest ih =>
    intro a i k h
    rw [show writeList a i (v :: rest) = writeList (write a i v) (i + 1) rest from rfl]
    cases k with
    | zero =>
      rw [show i + 0 = i from rfl,
        writeList_outside rest (write a i v) (i + 1) i (Or.inl (by omega))]
      simp [write]
    | succ m =>
      rw [show i + (m + 1) = (i + 1) + m from by omega,
        ih (write a i v) (i + 1) m (by simpa using h)]
      simp

lemma writeList_append (l1 l2 : List ℚ) : ∀ (a : JSArray) (i : ℕ),
    writeList a i (l1 ++ l2) = writeList (writeList a i l1) (i + l1.length) l2 := by
  induction l1 with
  | nil => intro a i; simp [writeList]
  | cons v rest ih =>
    intro a i
    rw [show writeList a i (v :: rest ++ l2)
        = writeList (write a i v) (i + 1) (rest ++ l2) from rfl, ih,
      show (i + 1) + rest.length = i + (v :: rest).length from by
        simp only [List.length_cons]; omega]
    rfl

lemma writeList_region (l1 l2 : List ℚ) (a : JSArray) (i k : ℕ) (h : k < l1.length) :
    writeList a i (l1 ++ l2) (i + k) = l1[k] := by
  rw [writeList_append,
    writeList_outside l2 (writeList a i l1) (i + l1.length) (i + k) (Or.inl (by omega)),
    writeList_get l1 a i k h]

lemma flattenPositions_length (l : List Cartesian3) :
    (flattenPositions l).length = l.length * 3 := by
  induction l with
  | nil => simp [flattenPositions]
  | cons p rest ih => simp only [flattenPositions, List.length_cons, ih]; omega

lemma flattenShape_length (l : List Cartesian2) :
    (flattenShape l).length = l.length * 2 := by
  induction l with
  | nil => simp [flattenShape]
  | cons p rest ih => simp only [flattenShape, List.length_cons, ih]; omega

lemma packPositionsLoop_eq (l : List Cartesian3) : ∀ (a : JSArray) (i : ℕ),
    packPositionsLoop l a i = writeList a i (flattenPositions l) := by
  induction l with
  | nil => intro a i; rfl
  | cons p rest ih =>
    intro a i
    rw [show packPositionsLoop (p :: rest) a i
        = packPositionsLoop rest (Cartesian3.pack p a i) (i + Cartesian3.packedLength)
        from rfl, ih]
    rfl

lemma packShapeLoop_eq (l : List Cartesian2) : ∀ (a : JSArray) (i : ℕ),
    packShapeLoop l a i = writeList a i (flattenShape l) := by
  induction l with
  | nil => intro a i; rfl
  | cons p rest ih =>
    intro a i
    rw [show packShapeLoop (p :: rest) a i
        = packShapeLoop rest (Cartesian2.pack p a i) (i + Cartesian2.packedLength)
        from rfl, ih]
    rfl

/-- `pack` is exactly the spec's wire format written into the consecutive
slots starting at `startingIndex`. -/
lemma pack_eq_writeList (v : PolylineVolumeOutlineGeometry) (a : JSArray) (off : ℕ) :
    v.pack a off = writeList a off (layoutSlots v) := by
  obtain ⟨ps, sh, e, ct, gr, pl⟩ := v
  obtain ⟨⟨ex, ey, ez⟩⟩ := e
  simp only [PolylineVolumeOutlineGeometry.pack, layoutSlots, Ellipsoid.pack,
    Cartesian3.pack, Cartesian3.packedLength, Cartesian2.packedLength,
    Ellipsoid.packedLength]
  rw [packPositionsLoop_eq, packShapeLoop_eq, writeList_append, writeList_append,
    writeList_append]
  simp only [List.length_cons, List.length_nil, flattenPositions_length,
    flattenShape_length, List.length_append, writeList]
  ring_nf

lemma layoutSlots_length (v : PolylineVolumeOutlineGeometry) :
    (layoutSlots v).length
      = 1 + v._positions.length * 3 + 1 + v._shape.length * 2
        + Ellipsoid.packedLength + 2 := by
  simp only [layoutSlots, List.length_append, List.length_cons, List.length_nil,
    flattenPositions_length, flattenShape_length, Ellipsoid.packedLength]
  omega

lemma readCount_natCast (n : ℕ) : readCount (n : ℚ) = n := by
  simp [readCount]

lemma writeList_three_first (A B C : List ℚ) (a : JSArray) (k : ℕ) (hk : k < A.length) :
    writeList a 0 (A ++ (B ++ C)) k = A[k] := by
  have h := writeList_region A (B ++ C) a 0 k hk
  rwa [Nat.zero_add] at h

lemma writeList_three_second (A B C : List ℚ) (a : JSArray) (k : ℕ) (hk : k < B.length) :
    writeList a 0 (A ++ (B ++ C)) (A.length + k) = B[k] := by
  rw [writeList_append, Nat.zero_add]
  exact writeList_region B C (writeList a 0 A) A.length k hk

lemma writeList_three_third (A B C : List ℚ) (a : JSArray) (k : ℕ) (hk : k < C.length) :
    writeList a 0 (A ++ (B ++ C)) (A.length + B.length + k) = C[k] := by
  rw [writeList_append, Nat.zero_add, writeList_append]
  exact writeList_get C (writeList (writeList a 0 A) A.length B) (A.length + B.length) k hk

lemma unpackPositionsLoop_reads (l : List Cartesian3) : ∀ (b : JSArray) (i : ℕ),
    (∀ k (hk : k < (flattenPositions l).length), b (i + k) = (flattenPositions l)[k]) →
    unpackPositionsLoop b l.length i = l := by
  induction l with
  | nil => intro b i _; rfl
  | cons p rest ih =>
    intro b i h
    obtain ⟨px, py, pz⟩ := p
    have h0 : b i = px := by
      simpa [flattenPositions] using h 0 (by simp [flattenPositions])
    have h1 : b (i + 1) = py := by
      simpa [flattenPositions] using h 1 (by simp [flattenPositions])
    have h2 : b (i + 2) = pz := by
      simpa [flattenPositions] using h 2 (by simp [flattenPositions])
    rw [show ((⟨px, py, pz⟩ : Cartesian3) :: rest).length = rest.length + 1 from rfl,
      show unpackPositionsLoop b (rest.length + 1) i
        = Cartesian3.unpack b i
          :: unpackPositionsLoop b rest.length (i + Cartesian3.packedLength) from rfl]
    congr 1
    · simp [Cartesian3.unpack, h0, h1, h2]
    · apply ih
      intro k hk
      have hk3 : k + 3 < (flattenPositions ((⟨px, py, pz⟩ : Cartesian3) :: rest)).length := by
        simp only [flattenPositions, List.length_cons]; omega
      have hread := h (k + 3) hk3
      rw [show i + Cartesian3.packedLength + k = i + (k + 3) from by
        simp only [Cartesian3.packedLength]; omega]
      exact hread

lemma unpackShapeLoop_reads (l : List Cartesian2) : ∀ (b : JSArray) (i : ℕ),
    (∀ k (hk : k < (flattenShape l).length), b (i + k) = (flattenShape l)[k]) →
    unpackShapeLoop b l.length i = l := by
  induction l with
  | nil => intro b i _; rfl
  | cons p rest ih =>
    intro b i h
    obtain ⟨px, py⟩ := p
    have h0 : b i = px := by
      simpa [flattenShape] using h 0 (by simp [flattenShape])
    have h1 : b (i + 1) = py := by
      simpa [flattenShape] using h 1 (by simp [flattenShape])
    rw [show ((⟨px, py⟩ : Cartesian2) :: rest).length = rest.length + 1 from rfl,
      show unpackShapeLoop b (rest.length + 1) i
        = Cartesian2.unpack b i
          :: unpackShapeLoop b rest.length (i + Cartesian2.packedLength) from rfl]
    congr 1
    · simp [Cartesian2.unpack, h0, h1]
    · apply ih
      intro k hk
      have hk2 : k + 2 < (flattenShape ((⟨px, py⟩ : Cartesian2) :: rest)).length := by
        simp only [flattenShape, List.length_cons]; omega
      have hread := h (k + 2) hk2
      rw [show i + Cartesian2.packedLength + k = i + (k + 2) from by
        simp only [Cartesian2.packedLength]; omega]
      exact hread

/-- Decoding a buffer produced by `pack` at offset 0 recovers every stored
field of the original spec. -/
lemma readFields_pack (v : PolylineVolumeOutlineGeometry) (a : JSArray) :
    readFields (v.pack a 0) 0
      = ⟨v._positions, v._shape, v._ellipsoid, v._cornerType, v._granularity⟩ := by
  obtain ⟨ps, sh, e, ct, gr, pl⟩ := v
  obtain ⟨⟨ex, ey, ez⟩⟩ := e
  have hb : PolylineVolumeOutlineGeometry.pack ⟨ps, sh, ⟨⟨ex, ey, ez⟩⟩, ct, gr, pl⟩ a 0
      = writeList a 0 ((((ps.length : ℚ)) :: flattenPositions ps)
        ++ ((((sh.length : ℚ)) :: flattenShape sh)
        ++ ([ex, ey, ez] ++ [ct, gr]))) := by
    rw [pack_eq_writeList]; rfl
  have hAlen : (((ps.length : ℚ)) :: flattenPositions ps).length = ps.length * 3 + 1 := by
    simp [flattenPositions_length]
  have hBlen : (((sh.length : ℚ)) :: flattenShape sh).length = sh.length * 2 + 1 := by
    simp [flattenShape_length]
  set b : JSArray := PolylineVolumeOutlineGeometry.pack ⟨ps, sh, ⟨⟨ex, ey, ez⟩⟩, ct, gr, pl⟩ a 0
    with hbdef
  -- a read in the path region
  have hpathRead : ∀ k (hk : k < (flattenPositions ps).length), b (1 + k) = (flattenPositions ps)[k] := by
    intro k hk
    have h := writeList_three_first (((ps.length : ℚ)) :: flattenPositions ps)
      (((sh.length : ℚ)) :: flattenShape sh) ([ex, ey, ez] ++ [ct, gr]) a (k + 1)
      (by simp only [List.length_cons]; omega)
    rw [hb, show 1 + k = k + 1 from by omega]
    exact h
  -- the stored path count
  have hcnt1 : b 0 = (ps.length : ℚ) := by
    have h := writeList_three_first (((ps.length : ℚ)) :: flattenPositions ps)
      (((sh.length : ℚ)) :: flattenShape sh) ([ex, ey, ez] ++ [ct, gr]) a 0
      (by simp only [List.length_cons]; omega)
    rw [hb]
    simpa using h
  -- the stored shape count
  have hcnt2 : b (1 + ps.length * 3) = (sh.length : ℚ) := by
    have h := writeList_three_second (((ps.length : ℚ)) :: flattenPositions ps)
      (((sh.length : ℚ)) :: flattenShape sh) ([ex, ey, ez] ++ [ct, gr]) a 0
      (by simp only [List.length_cons]; omega)
    rw [hAlen] at h
    rw [hb, show 1 + ps.length * 3 = ps.length * 3 + 1 + 0 from by omega]
    simpa using h
  -- a read in the shape region
  have hshapeRead : ∀ k (hk : k < (flattenShape sh).length),
      b (1 + ps.length * 3 + 1 + k) = (flattenShape sh)[k] := by
    intro k hk
    have h := writeList_three_second (((ps.length : ℚ)) :: flattenPositions ps)
      (((sh.length : ℚ)) :: flattenShape sh) ([ex, ey, ez] ++ [ct, gr]) a (k + 1)
      (by simp only [List.length_cons]; omega)
    rw [hAlen] at h
    rw [hb, show 1 + ps.length * 3 + 1 + k = ps.length * 3 + 1 + (k + 1) from by omega]
    exact h
  -- reads in the trailing region (radii, corner style, granularity)
  have htail : ∀ k (hk : k < 5),
      b (1 + ps.length * 3 + 1 + sh.length * 2 + k) = ([ex, ey, ez] ++ [ct, gr])[k] := by
    intro k hk
    have h := writeList_three_third (((ps.length : ℚ)) :: flattenPositions ps)
      (((sh.length : ℚ)) :: flattenShape sh) ([ex, ey, ez] ++ [ct, gr]) a k
      (by simpa using hk)
    rw [hAlen, hBlen] at h
    rw [hb, show 1 + ps.length * 3 + 1 + sh.length * 2 + k
      = ps.length * 3 + 1 + (sh.length * 2 + 1) + k from by omega]
    exact h
  -- now evaluate the sequential reads of unpack
  simp only [readFields, Nat.zero_add, Cartesian3.packedLength, Cartesian2.packedLength,
    Ellipsoid.packedLength]
  rw [hcnt1, readCount_natCast]
  rw [hcnt2, readCount_natCast]
  simp only [UnpackedFields.mk.injEq]
  refine ⟨?_, ?_, ?_, ?_, ?_⟩
  · exact unpackPositionsLoop_reads ps b 1 hpathRead
  · exact unpackShapeLoop_reads sh b (1 + ps.length * 3 + 1)
      (fun k hk => hshapeRead k hk)
  · simp only [Ellipsoid.unpack, Cartesian3.unpack]
    have t0 := htail 0 (by omega)
    have t1 := htail 1 (by omega)
    have t2 := htail 2 (by omega)
    rw [show 1 + ps.length * 3 + 1 + sh.length * 2 + 0
      = 1 + ps.length * 3 + 1 + sh.length * 2 from by omega] at t0
    rw [t0, t1, t2]
    rfl
  · have t3 := htail 3 (by omega)
    rw [t3]
    rfl
  · have t4 := htail 4 (by omega)
    rw [show 1 + ps.length * 3 + 1 + sh.length * 2 + 3 + 1
      = 1 + ps.length * 3 + 1 + sh.length * 2 + 4 from by omega, t4]
    rfl

/-! ### Serialization claims -/

/-- C2: for every spec, unpacking the array produced by `pack(spec, array, 0)`
yields a spec equal field-by-field to the original: same path points, same
shape points, same reference-surface radii, same corner-style code, and same
granularity. -/
theorem c2_packUnpackRoundTrip (v : PolylineVolumeOutlineGeometry) (array : JSArray)
    (scratch : Ellipsoid) :
    ((PolylineVolumeOutlineGeometry.unpackFresh (v.pack array 0) 0 scratch).1._positions
        = v._positions)
    ∧ ((PolylineVolumeOutlineGeometry.unpackFresh (v.pack array 0) 0 scratch).1._shape
        = v._shape)
    ∧ ((PolylineVolumeOutlineGeometry.unpackFresh (v.pack array 0) 0 scratch).1._ellipsoid
        = v._ellipsoid)
    ∧ ((PolylineVolumeOutlineGeometry.unpackFresh (v.pack array 0) 0 scratch).1._cornerType
        = v._cornerType)
    ∧ ((PolylineVolumeOutlineGeometry.unpackFresh (v.pack array 0) 0 scratch).1._granularity
        = v._granularity) := by
  simp [PolylineVolumeOutlineGeometry.unpackFresh, readFields_pack, construct,
    Ellipsoid.clone]

/-- C8: the `packedLength` computed at construction time is
`1 + pathLen*3 + 1 + shapeLen*2 + (reference-surface slot width) + 2`. -/
theorem c8_packedLengthFormula (polylinePositions : List Cartesian3)
    (shapePositions : List Cartesian2) (ellipsoid : Ellipsoid)
    (cornerType granularity : ℚ) :
    (construct polylinePositions shapePositions ellipsoid
        cornerType granularity).packedLength
      = 1 + polylinePositions.length * 3 + 1 + shapePositions.length * 2
        + Ellipsoid.packedLength + 2 := by
  simp only [construct, Cartesian3.packedLength, Cartesian2.packedLength]
  omega

/-- C4 counterexample: `pack` writes outside the claimed span of
`2 + 3N + 2M + K` consecutive slots.  With `N = 2` path points, `M = 3` shape
points and `K = Ellipsoid.packedLength`, the claimed span starting at offset 0
ends at slot 17, yet `pack` modifies slot 17 (the corner-style slot, here 2). -/
theorem c4_packLayout_counterexample :
    sampleSpec.pack zeroArray 0
      (2 + 3 * sampleSpec._positions.length + 2 * sampleSpec._shape.length
        + Ellipsoid.packedLength)
      ≠ zeroArray
        (2 + 3 * sampleSpec._positions.length + 2 * sampleSpec._shape.length
          + Ellipsoid.packedLength) := by
  decide

/-- C4 (amended): `pack` writes exactly `2 + 3N + 2M + K + 2` consecutive
slots starting at the given offset — the claimed layout (path count, 3N path
coordinates, shape count, 2M shape coordinates, K reference-surface slots,
corner-style code, granularity) occupies two slots more than the claimed
total; every slot before the offset or at/after `offset + (2+3N+2M+K+2)` is
left unchanged. -/
theorem c4_packLayout_amended (v : PolylineVolumeOutlineGeometry) (array : JSArray)
    (off : ℕ) :
    v.pack array off = writeList array off (layoutSlots v)
    ∧ (layoutSlots v).length
        = 2 + v._positions.length * 3 + v._shape.length * 2
          + Ellipsoid.packedLength + 2
    ∧ (∀ k, k < off ∨ off + (layoutSlots v).length ≤ k →
        v.pack array off k = array k) := by
  refine ⟨pack_eq_writeList v array off, ?_, ?_⟩
  · rw [layoutSlots_length]; omega
  · intro k hk
    rw [pack_eq_writeList]
    exact writeList_outside (layoutSlots v) array off k hk

/-- C4 witness: a slot below the offset is untouched by `pack`. -/
theorem c4_packLayout_witness : sampleSpec.pack zeroArray 5 0 = zeroArray 0 :=
  (c4_packLayout_amended sampleSpec zeroArray 5).2.2 0 (Or.inl (by decide))

/-- C9 counterexample: decoding a buffer whose path/shape lengths differ from
those `result` was constructed with (4 and 0 against 2 and 3) can still leave
`result.packedLength` equal to the slot count needed to re-pack, because
`3*4 + 2*0 = 3*2 + 2*3`. -/
theorem c9_unpackIntoPackedLength_counterexample :
    ((PolylineVolumeOutlineGeometry.unpackInto
        (fun k => if k = 0 then 4 else 0) 0 sampleSpec).1._positions.length
      ≠ sampleSpec._positions.length)
    ∧ ((PolylineVolumeOutlineGeometry.unpackInto
        (fun k => if k = 0 then 4 else 0) 0 sampleSpec).1._shape.length
      ≠ sampleSpec._shape.length)
    ∧ ((PolylineVolumeOutlineGeometry.unpackInto
        (fun k => if k = 0 then 4 else 0) 0 sampleSpec).1.packedLength
      = (layoutSlots (PolylineVolumeOutlineGeometry.unpackInto
          (fun k => if k = 0 then 4 else 0) 0 sampleSpec).1).length) := by
  refine ⟨by decide, by decide, ?_⟩
  decide

/-- C9 (amended): `unpack` with a caller-provided result overwrites the five
data fields with the decoded values and leaves `packedLength` unchanged;
consequently, whenever the decoded lengths change the packed slot count
(in particular when only the path length or only the shape length changes),
the returned object's `packedLength` no longer matches the slot count needed
to re-pack it. -/
theorem c9_unpackIntoPackedLength_amended (array : JSArray) (startingIndex : ℕ)
    (result : PolylineVolumeOutlineGeometry) :
    ((PolylineVolumeOutlineGeometry.unpackInto array startingIndex result).1.packedLength
        = result.packedLength)
    ∧ ((PolylineVolumeOutlineGeometry.unpackInto array startingIndex result).1._positions
        = (readFields array startingIndex).positions)
    ∧ ((PolylineVolumeOutlineGeometry.unpackInto array startingIndex result).1._shape
        = (readFields array startingIndex).shape)
    ∧ ((PolylineVolumeOutlineGeometry.unpackInto array startingIndex result).1._ellipsoid
        = (readFields array startingIndex).ellipsoid)
    ∧ ((PolylineVolumeOutlineGeometry.unpackInto array startingIndex result).1._cornerType
        = (readFields array startingIndex).cornerType)
    ∧ ((PolylineVolumeOutlineGeometry.unpackInto array startingIndex result).1._granularity
        = (readFields array startingIndex).granularity)
    ∧ (result.packedLength = (layoutSlots result).length →
        (layoutSlots (PolylineVolumeOutlineGeometry.unpackInto
            array startingIndex result).1).length ≠ (layoutSlots result).length →
        (PolylineVolumeOutlineGeometry.unpackInto array startingIndex result).1.packedLength
          ≠ (layoutSlots (PolylineVolumeOutlineGeometry.unpackInto
              array startingIndex result).1).length) := by
  refine ⟨rfl, rfl, rfl, rfl, rfl, rfl, ?_⟩
  intro h1 h2
  simp only [PolylineVolumeOutlineGeometry.unpackInto] at h2 ⊢
  omega

/-- C9 witness: with an all-zero buffer the decoded lengths are 0 and 0, the
packed slot count changes, and the preserved `packedLength` of the sample
spec no longer matches it. -/
theorem c9_unpackIntoPackedLength_witness :
    (PolylineVolumeOutlineGeometry.unpackInto zeroArray 0 sampleSpec).1.packedLength
      ≠ (layoutSlots (PolylineVolumeOutlineGeometry.unpackInto
          zeroArray 0 sampleSpec).1).length :=
  (c9_unpackIntoPackedLength_amended zeroArray 0 sampleSpec).2.2.2.2.2.2
    (by decide) (by decide)

/-- C10: a result-less `unpack` returns a spec holding its own buffer's
decoded radii (the constructor clones the module scratch rather than keeping
a reference to it): after two sequential result-less calls, the first spec
still holds the first buffer's radii, the scratch holds the second buffer's,
the first component does not depend on the incoming scratch state, and the
two differ whenever the buffers encode different radii. -/
theorem c10_unpackFreshScratch (a1 a2 : JSArray) (s0 : Ellipsoid) :
    ((PolylineVolumeOutlineGeometry.unpackFresh a1 0 s0).1._ellipsoid
        = (readFields a1 0).ellipsoid)
    ∧ ((PolylineVolumeOutlineGeometry.unpackFresh a2 0
          (PolylineVolumeOutlineGeometry.unpackFresh a1 0 s0).2).1._ellipsoid
        = (readFields a2 0).ellipsoid)
    ∧ ((PolylineVolumeOutlineGeometry.unpackFresh a2 0
          (PolylineVolumeOutlineGeometry.unpackFresh a1 0 s0).2).2
        = (readFields a2 0).ellipsoid)
    ∧ (∀ s s' : Ellipsoid,
        (PolylineVolumeOutlineGeometry.unpackFresh a1 0 s).1
          = (PolylineVolumeOutlineGeometry.unpackFresh a1 0 s').1)
    ∧ ((readFields a1 0).ellipsoid ≠ (readFields a2 0).ellipsoid →
        (PolylineVolumeOutlineGeometry.unpackFresh a1 0 s0).1._ellipsoid
          ≠ (PolylineVolumeOutlineGeometry.unpackFresh a2 0
              (PolylineVolumeOutlineGeometry.unpackFresh a1 0 s0).2).2) := by
  refine ⟨rfl, rfl, rfl, fun s s' => rfl, ?_⟩
  intro h hc
  exact h hc

/-- C10 witness: two buffers encoding different radii give a first spec whose
radii differ from the scratch contents after the second call. -/
theorem c10_unpackFreshScratch_witness :
    (PolylineVolumeOutlineGeometry.unpackFresh zeroArray 0 unitEllipsoid).1._ellipsoid
      ≠ (PolylineVolumeOutlineGeometry.unpackFresh (fun _ => (1 : ℚ)) 0
          (PolylineVolumeOutlineGeometry.unpackFresh zeroArray 0 unitEllipsoid).2).2 :=
  (c10_unpackFreshScratch zeroArray (fun _ => (1 : ℚ)) unitEllipsoid).2.2.2.2 (by decide)

/-! ### Topology claims -/

lemma length_range_flatMap {α : Type} (n c : ℕ) (f : ℕ → List α)
    (h : ∀ j, (f j).length = c) : ((List.range n).flatMap f).length = c * n := by
  induction n with
  | zero => simp
  | succ m ih =>
    rw [List.range_succ, List.flatMap_append, List.length_append, ih]
    simp only [List.flatMap_cons, List.flatMap_nil, List.append_nil, h m]
    ring

lemma ringIndices_length (L off : ℕ) :
    (ringIndices L off).length = 2 * (L - 1) + 2 := by
  unfold ringIndices
  rw [List.length_append,
    length_range_flatMap (L - 1) 2 (fun j => [j + off, j + off + 1]) (fun j => rfl)]
  simp

lemma connectorIndices_length (L C : ℕ) :
    (connectorIndices L C).length = (2 * L) * (C - 1) := by
  unfold connectorIndices
  exact length_range_flatMap (C - 1) (2 * L)
    (fun i => (List.range L).flatMap fun j => [j + L * i, j + (L * i + L)])
    (fun i => length_range_flatMap L 2
      (fun j => [j + L * i, j + (L * i + L)]) (fun j => rfl))

lemma computeIndices_length (L C : ℕ) (hL : 1 ≤ L) (hC : 1 ≤ C) :
    (computeIndices L C).length = 2 * L * (C + 1) := by
  unfold computeIndices
  rw [List.length_append, List.length_append, ringIndices_length, ringIndices_length,
    connectorIndices_length]
  obtain ⟨l, rfl⟩ : ∃ l, L = l + 1 := ⟨L - 1, by omega⟩
  obtain ⟨c, rfl⟩ : ∃ c, C = c + 1 := ⟨C - 1, by omega⟩
  simp only [Nat.add_sub_cancel]
  ring

/-- The index buffer written by the code is exactly the index buffer the spec
describes, group by group. -/
lemma computeIndices_eq_spec (L C : ℕ) :
    computeIndices L C = specOutlineIndices L C := by
  unfold computeIndices specOutlineIndices ringIndices connectorIndices
  have h0 : (fun j : ℕ => [j + 0 * L, j + 0 * L + 1]) = (fun j : ℕ => [j, j + 1]) := by
    funext j
    simp
  have h0c : ([L - 1 + 0 * L, 0 * L] : List ℕ) = [L - 1, 0] := by
    simp
  have h1 : (fun j : ℕ => [j + (C - 1) * L, j + (C - 1) * L + 1])
      = (fun j : ℕ => [j + (C - 1) * L, j + 1 + (C - 1) * L]) := by
    funext j
    have e1 : j + (C - 1) * L + 1 = j + 1 + (C - 1) * L := by omega
    rw [e1]
  have h1c : ([L - 1 + (C - 1) * L, (C - 1) * L] : List ℕ)
      = [L - 1 + (C - 1) * L, 0 + (C - 1) * L] := by
    simp
  have h2 : (fun i : ℕ => (List.range L).flatMap fun j => [j + L * i, j + (L * i + L)])
      = (fun i : ℕ => (List.range L).flatMap fun j => [j + i * L, j + (i + 1) * L]) := by
    funext i
    refine congrArg _ (funext fun j => ?_)
    have e1 : j + L * i = j + i * L := by ring
    have e2 : j + (L * i + L) = j + (i + 1) * L := by ring
    rw [e1, e2]
  rw [h0, h0c, h1, h1c, h2]
  simp only [List.append_assoc]

lemma lt_mul_of_parts (L C j k : ℕ) (hj : j < L) (hk : k ≤ C - 1) (hC : 1 ≤ C) :
    j + k * L < C * L := by
  have h1 : k * L ≤ (C - 1) * L := Nat.mul_le_mul_right L hk
  have h2 : L + (C - 1) * L = C * L := by
    obtain ⟨c, rfl⟩ : ∃ c, C = c + 1 := ⟨C - 1, by omega⟩
    simp only [Nat.add_sub_cancel]
    ring
  omega

lemma mem_computeIndices_lt (L C : ℕ) (hL : 1 ≤ L) (hC : 1 ≤ C) :
    ∀ x ∈ computeIndices L C, x < C * L := by
  intro x hx
  have hLC : L ≤ C * L := Nat.le_mul_of_pos_left L hC
  have h2 : L + (C - 1) * L = C * L := by
    obtain ⟨c, rfl⟩ : ∃ c, C = c + 1 := ⟨C - 1, by omega⟩
    simp only [Nat.add_sub_cancel]
    ring
  simp only [computeIndices, ringIndices, connectorIndices, List.mem_append,
    List.mem_flatMap, List.mem_range, List.mem_cons, List.not_mem_nil, or_false,
    Nat.zero_mul, Nat.add_zero, Nat.mul_zero] at hx
  rcases hx with ((⟨j, hj, hx⟩ | hx) | (⟨j, hj, hx⟩ | hx)) | ⟨i, hi, j, hj, hx⟩
  · omega
  · omega
  · omega
  · omega
  · have h3 : L * i + L = L * (i + 1) := by ring
    have h4 : L * (i + 1) ≤ L * (C - 1) := Nat.mul_le_mul_left L (by omega)
    have h5 : L + L * (C - 1) = C * L := by
      obtain ⟨c, rfl⟩ : ∃ c, C = c + 1 := ⟨C - 1, by omega⟩
      simp only [Nat.add_sub_cancel]
      ring
    omega

/-- C1: under the stated well-formedness hypotheses, the index buffer built
by the topology builder consists, in order, of exactly the start ring, the
shifted end ring and the longitudinal connectors described by the spec, and
nothing else. -/
theorem c1_outlineIndexGroups (positions : List ℚ) (shape : List Cartesian2)
    (shapeCount : ℕ) (hL : 3 ≤ shape.length) (hC : 2 ≤ shapeCount)
    (hpos : positions.length = shapeCount * shape.length * 3) :
    (computeAttributes positions shape).indices
      = specOutlineIndices shape.length shapeCount := by
  simp only [computeAttributes]
  rw [hpos, Nat.mul_div_cancel _ (by omega : 0 < 3),
    Nat.mul_div_cancel shapeCount (by omega : 0 < shape.length)]
  exact computeIndices_eq_spec shape.length shapeCount

/-- C1 witness: a triangle swept to two cross-sections (18 position slots). -/
theorem c1_outlineIndexGroups_witness :
    (computeAttributes (List.replicate 18 (0 : ℚ)) triCW).indices
      = specOutlineIndices 3 2 :=
  c1_outlineIndexGroups (List.replicate 18 (0 : ℚ)) triCW 2 (by decide) (by decide)
    (by decide)

/-- C3: the outline index buffer has exactly `2*L*(C+1)` entries, which is
exactly the allocated size, so every allocated entry is written. -/
theorem c3_indexCountFormula (positions : List ℚ) (shape : List Cartesian2)
    (shapeCount : ℕ) (hL : 3 ≤ shape.length) (hC : 2 ≤ shapeCount)
    (hpos : positions.length = shapeCount * shape.length * 3) :
    (computeAttributes positions shape).indices.length
        = allocatedIndexCount shape.length shapeCount
    ∧ allocatedIndexCount shape.length shapeCount
        = 2 * shape.length * (shapeCount + 1) := by
  refine ⟨?_, rfl⟩
  simp only [computeAttributes, allocatedIndexCount]
  rw [hpos, Nat.mul_div_cancel _ (by omega : 0 < 3),
    Nat.mul_div_cancel shapeCount (by omega : 0 < shape.length)]
  exact computeIndices_length shape.length shapeCount (by omega) (by omega)

/-- C3 witness: with `L = 3`, `C = 2` the buffer has `18 = 2*3*(2+1)`
entries. -/
theorem c3_indexCountFormula_witness :
    (computeAttributes (List.replicate 18 (0 : ℚ)) triCCW).indices.length
      = allocatedIndexCount 3 2 :=
  (c3_indexCountFormula (List.replicate 18 (0 : ℚ)) triCCW 2 (by decide) (by decide)
    (by decide)).1

/-- C7: every entry of the index buffer is strictly less than `vertexCount`
(the position buffer length divided by 3). -/
theorem c7_indexRange (positions : List ℚ) (shape : List Cartesian2)
    (shapeCount : ℕ) (hL : 3 ≤ shape.length) (hC : 2 ≤ shapeCount)
    (hpos : positions.length = shapeCount * shape.length * 3) :
    ∀ x ∈ (computeAttributes positions shape).indices, x < positions.length / 3 := by
  intro x hx
  simp only [computeAttributes] at hx
  rw [hpos, Nat.mul_div_cancel _ (by omega : 0 < 3)] at hx ⊢
  rw [Nat.mul_div_cancel shapeCount (by omega : 0 < shape.length)] at hx
  exact mem_computeIndices_lt shape.length shapeCount (by omega) (by omega) x hx

/-- C7 witness: every entry of the concrete 18-entry buffer is below
`vertexCount = 6`. -/
theorem c7_indexRange_witness :
    ((computeAttributes (List.replicate 18 (0 : ℚ)) triCW).indices.all
      fun x => decide (x < (List.replicate 18 (0 : ℚ)).length / 3)) = true :=
  List.all_eq_true.mpr fun x hx =>
    decide_eq_true
      (c7_indexRange (List.replicate 18 (0 : ℚ)) triCW 2 (by decide) (by decide)
        (by decide) x hx)

/-! ### Winding normalization (C5) -/

/-- A list induction principle stepping from `b :: rest` to `a :: b :: rest`,
matching the recursion of `pathCross` and `shoelace`. -/
theorem twoStepInduction {α : Type} {motive : List α → Prop} (h0 : motive [])
    (h1 : ∀ a, motive [a])
    (hstep : ∀ a b rest, motive (b :: rest) → motive (a :: b :: rest)) :
    ∀ l, motive l
  | [] => h0
  | [a] => h1 a
  | a :: b :: rest => hstep a b rest (twoStepInduction h0 h1 hstep (b :: rest))

lemma cross2_swap (a b : Cartesian2) : cross2 b a = - cross2 a b := by
  unfold cross2
  ring

lemma pathCross_append (l1 : List Cartesian2) (a : Cartesian2) (l2 : List Cartesian2) :
    pathCross (l1 ++ a :: l2) = pathCross (l1 ++ [a]) + pathCross (a :: l2) := by
  induction l1 with
  | nil => simp [pathCross]
  | cons x l1 ih =>
    cases l1 with
    | nil =>
      simp only [List.cons_append, List.nil_append]
      rw [show pathCross (x :: a :: l2) = cross2 x a + pathCross (a :: l2) from rfl,
        show pathCross [x, a] = cross2 x a + pathCross [a] from rfl,
        show pathCross ([a] : List Cartesian2) = 0 from rfl]
      ring
    | cons y m =>
      simp only [List.cons_append] at ih ⊢
      rw [show pathCross (x :: y :: (m ++ a :: l2))
          = cross2 x y + pathCross (y :: (m ++ a :: l2)) from rfl, ih,
        show pathCross (x :: y :: (m ++ [a]))
          = cross2 x y + pathCross (y :: (m ++ [a])) from rfl]
      ring

lemma pathCross_reverse : ∀ l : List Cartesian2, pathCross l.reverse = - pathCross l := by
  refine twoStepInduction ?_ ?_ ?_
  · simp [pathCross]
  · intro a
    simp [pathCross]
  · intro a b rest ih
    have hrev : (a :: b :: rest).reverse = rest.reverse ++ b :: [a] := by
      simp
    rw [hrev, pathCross_append rest.reverse b [a]]
    have hrev2 : (b :: rest).reverse = rest.reverse ++ [b] := by
      simp
    rw [← hrev2, ih,
      show pathCross (b :: [a]) = cross2 b a + pathCross [a] from rfl,
      show pathCross ([a] : List Cartesian2) = 0 from rfl,
      show pathCross (a :: b :: rest) = cross2 a b + pathCross (b :: rest) from rfl,
      cross2_swap a b]
    ring

lemma shoelace_eq_pathCross (p0 : Cartesian2) :
    ∀ l, shoelace p0 l = pathCross (l ++ [p0]) := by
  refine twoStepInduction ?_ ?_ ?_
  · simp [shoelace, pathCross]
  · intro a
    rw [show shoelace p0 [a] = cross2 a p0 from rfl,
      show ([a] ++ [p0] : List Cartesian2) = [a, p0] from rfl,
      show pathCross [a, p0] = cross2 a p0 + pathCross [p0] from rfl,
      show pathCross ([p0] : List Cartesian2) = 0 from rfl]
    ring
  · intro a b rest ih
    rw [show shoelace p0 (a :: b :: rest) = cross2 a b + shoelace p0 (b :: rest) from rfl,
      ih]
    simp only [List.cons_append]
    rw [show pathCross (a :: b :: (rest ++ [p0]))
      = cross2 a b + pathCross (b :: (rest ++ [p0])) from rfl]

lemma signedAreaDoubled_cons (p0 : Cartesian2) (rest : List Cartesian2) :
    signedAreaDoubled (p0 :: rest) = pathCross ((p0 :: rest) ++ [p0]) := by
  rw [show signedAreaDoubled (p0 :: rest) = shoelace p0 (p0 :: rest) from rfl,
    shoelace_eq_pathCross]

/-- The doubled signed area is invariant under rotating the first vertex to
the end of the list. -/
lemma signedAreaDoubled_rotate (a : Cartesian2) (m : List Cartesian2) :
    signedAreaDoubled (a :: m) = signedAreaDoubled (m ++ [a]) := by
  cases m with
  | nil => rfl
  | cons q mz =>
    rw [signedAreaDoubled_cons a (q :: mz)]
    rw [show ((q :: mz) ++ [a] : List Cartesian2) = q :: (mz ++ [a]) from rfl]
    rw [signedAreaDoubled_cons q (mz ++ [a])]
    have hL : pathCross ((a :: q :: mz) ++ [a])
        = pathCross ([a] ++ [q]) + pathCross (q :: (mz ++ [a])) := by
      rw [show ((a :: q :: mz) ++ [a] : List Cartesian2)
        = [a] ++ q :: (mz ++ [a]) from by simp]
      exact pathCross_append [a] q (mz ++ [a])
    have hR : pathCross ((q :: (mz ++ [a])) ++ [q])
        = pathCross ((q :: mz) ++ [a]) + pathCross (a :: [q]) := by
      rw [show ((q :: (mz ++ [a])) ++ [q] : List Cartesian2)
        = (q :: mz) ++ a :: [q] from by simp]
      exact pathCross_append (q :: mz) a [q]
    rw [hL, hR]
    have h1 : pathCross (q :: (mz ++ [a])) = pathCross ((q :: mz) ++ [a]) := rfl
    have h2 : pathCross ([a] ++ [q]) = pathCross (a :: [q]) := rfl
    rw [h1, h2]
    ring

/-- Reversing a polygon's vertex order negates its doubled signed area. -/
lemma signedAreaDoubled_reverse (l : List Cartesian2) :
    signedAreaDoubled l.reverse = - signedAreaDoubled l := by
  cases l with
  | nil => simp [signedAreaDoubled]
  | cons p0 rest =>
    have h1 : (p0 :: rest).reverse = rest.reverse ++ [p0] := by
      simp
    rw [h1, ← signedAreaDoubled_rotate p0 rest.reverse,
      signedAreaDoubled_cons p0 rest.reverse, signedAreaDoubled_cons p0 rest]
    have h2 : ((p0 :: rest.reverse) ++ [p0] : List Cartesian2)
        = ((p0 :: rest) ++ [p0]).reverse := by
      simp
    rw [h2, pathCross_reverse]

/-- C5: for a shape with at least 3 points, a negative (clockwise) shoelace
signed area makes `createGeometry`'s winding fix reverse the point order and
the resulting shape is counter-clockwise (positive signed area); an already
counter-clockwise shape is left unchanged. -/
theorem c5_windingNormalization (shape : List Cartesian2) (h3 : 3 ≤ shape.length) :
    (signedAreaDoubled shape < 0 →
      normalizeWinding shape = shape.reverse
        ∧ 0 < signedAreaDoubled (normalizeWinding shape))
    ∧ (0 < signedAreaDoubled shape → normalizeWinding shape = shape) := by
  constructor
  · intro hneg
    have hcw : computeWindingOrder2D shape = WindingOrder.CLOCKWISE := by
      simp [computeWindingOrder2D, hneg]
    have hrw : normalizeWinding shape = shape.reverse := by
      simp [normalizeWinding, hcw]
    refine ⟨hrw, ?_⟩
    rw [hrw, signedAreaDoubled_reverse]
    linarith
  · intro hpos
    have hccw : computeWindingOrder2D shape = WindingOrder.COUNTER_CLOCKWISE := by
      simp [computeWindingOrder2D, not_lt.mpr (le_of_lt hpos)]
    simp [normalizeWinding, hccw]

/-- C5 witness: a concrete clockwise triangle is reversed and becomes
counter-clockwise. -/
theorem c5_windingNormalization_witness :
    normalizeWinding triCW = triCW.reverse
      ∧ 0 < signedAreaDoubled (normalizeWinding triCW) :=
  (c5_windingNormalization triCW (by decide)).1
    (by norm_num [triCW, signedAreaDoubled, shoelace, cross2])

/-! ### Precondition enforcement (C6) -/

lemma dedupFrom_all_eq {α : Type} [DecidableEq α] (p : α) :
    ∀ l : List α, (∀ q ∈ l, q = p) → dedupFrom p l = []
  | [], _ => rfl
  | x :: rest, h => by
    have hx : x = p := h x (List.mem_cons_self x rest)
    rw [show dedupFrom p (x :: rest)
      = if x = p then dedupFrom p rest else x :: dedupFrom x rest from rfl, if_pos hx]
    exact dedupFrom_all_eq p rest (fun q hq => h q (List.mem_cons_of_mem x hq))

lemma removeDuplicates_all_eq {α : Type} [DecidableEq α] (p : α) (l : List α)
    (h : ∀ q ∈ l, q = p) : (removeDuplicates l).length ≤ 1 := by
  cases l with
  | nil => simp [removeDuplicates]
  | cons x rest =>
    rw [show removeDuplicates (x :: rest) = x :: dedupFrom x rest from rfl]
    have hx : x = p := h x (List.mem_cons_self x rest)
    subst hx
    rw [dedupFrom_all_eq x rest (fun q hq => h q (List.mem_cons_of_mem x hq))]
    simp

/-- C6: `createGeometry` fails with a precondition error (producing no
geometry, since the checks precede any construction) exactly when, after
duplicate removal, the path has fewer than 2 points or the shape has fewer
than 3; in particular a path whose points all deduplicate to a single point
fails, and a shape deduplicating to 2 or fewer points fails. -/
theorem c6_preconditionErrors
    (computePositions : List Cartesian3 → List Cartesian2 →
      PolylineVolumeOutlineGeometry → List ℚ)
    (g : PolylineVolumeOutlineGeometry) :
    (isError (createGeometry computePositions g) = true ↔
      ((removeDuplicatesFromPositions g._positions).length < 2
        ∨ (removeDuplicatesFromShape g._shape).length < 3))
    ∧ ((∃ p, ∀ q ∈ g._positions, q = p) →
        isError (createGeometry computePositions g) = true)
    ∧ ((removeDuplicatesFromShape g._shape).length ≤ 2 →
        isError (createGeometry computePositions g) = true) := by
  have hmain : isError (createGeometry computePositions g) = true ↔
      ((removeDuplicatesFromPositions g._positions).length < 2
        ∨ (removeDuplicatesFromShape g._shape).length < 3) := by
    unfold createGeometry
    by_cases h1 : (removeDuplicatesFromPositions g._positions).length < 2
    · simp [h1, isError]
    · by_cases h2 : (removeDuplicatesFromShape g._shape).length < 3
      · simp [h1, h2, isError]
      · simp [h1, h2, isError]
  refine ⟨hmain, ?_, ?_⟩
  · rintro ⟨p, hp⟩
    apply hmain.mpr
    left
    have := removeDuplicates_all_eq p g._positions hp
    unfold removeDuplicatesFromPositions
    omega
  · intro h
    exact hmain.mpr (Or.inr (by omega))

/-- C6 witness: a two-point path that deduplicates to a single point makes
`createGeometry` fail. -/
theorem c6_preconditionErrors_witness :
    isError (createGeometry (fun _ _ _ => ([] : List ℚ))
      (construct [⟨0, 0, 0⟩, ⟨0, 0, 0⟩] triCW unitEllipsoid 2 1)) = true :=
  (c6_preconditionErrors (fun _ _ _ => ([] : List ℚ))
      (construct [⟨0, 0, 0⟩, ⟨0, 0, 0⟩] triCW unitEllipsoid 2 1)).2.1
    ⟨⟨0, 0, 0⟩, by decide⟩

end Cesium
